import Mathlib

/- Verification development for the KrishiMitra farm orchestrator
   (backend/home/agents/farm_orchestrator.py and backend/home/views.py).

   The orchestrator pipeline is embedded shallowly:
   - The LangGraph state dict AgentState becomes a Lean structure with the
     same field names (the opaque user_context and progress_callback fields
     are omitted; no claim depends on them).
   - Python floats used for confidence scores become rationals.
   - Every external oracle call (the Gemini model) is passed in explicitly:
     a call that raises, or whose output fails to parse, is an Except.error
     or an Option none, matching the try/except structure of the source.
   - Python dicts keyed by agent name become association lists with
     Python dict update semantics (dictInsert below). -/

namespace KrishiMitra

/-- Result stored in state["agent_responses"] for one agent: either the
payload returned by agent.process, or the error dict built in the except
branch of the corresponding run_X_agent method. -/
inductive AgentResult where
  | success (payload : String)
  | failure (errorMessage : String)
deriving DecidableEq, Repr

/-- The AgentState TypedDict of farm_orchestrator.py (lines 28-38), minus
the opaque user_context map and the progress callback. -/
structure AgentState where
  user_query : String
  intent_classification : String
  confidence_score : ℚ
  agent_responses : List (String × AgentResult)
  final_response : String
  require_human_feedback : Bool
  agents_to_run : List String
deriving DecidableEq, Repr

/-- Parsed JSON returned by the classification oracle on success
(classify_intent, lines 182-195): the agents_needed list and the optional
confidence value.  A missing confidence key is none; a raised call, output
that is not valid JSON, or a confidence value that float() rejects, all
land in the except branch and are modelled as Except.error upstream. -/
structure ClassifyOut where
  agents_needed : List String
  confidence : Option ℚ
deriving DecidableEq, Repr

/-- The closed agent set: the keys of agent_map in run_multiple_agents
(lines 244-251), identical to the list tested in route_to_agents. -/
def knownAgents : List String := ["market", "satellite", "weather", "pest", "soil", "search"]

/-- The error-message text built in the except branch of each
run_X_agent method (for example line 333: "Market agent failed: {e}").
Unknown names never reach a wrapper; the final branch mirrors the message
of the outer handler in run_multiple_agents (line 295). -/
def failMsgOf (name : String) : String :=
  if name = "market" then "Market agent failed: "
  else if name = "satellite" then "Satellite agent failed: "
  else if name = "weather" then "Weather agent failed: "
  else if name = "pest" then "Pest agent failed: "
  else if name = "soil" then "Soil agent failed: "
  else if name = "search" then "Search agent failed: "
  else "Agent execution failed: "

/-- One run_X_agent wrapper (lines 314-499): calls agent.process inside
try/except and converts any raised exception into the error dict, so the
result map always receives exactly one entry for the agent. -/
def runAgent (impl : String → Except String String) (name : String) : AgentResult :=
  match impl name with
  | .ok payload => .success payload
  | .error e => .failure (failMsgOf name ++ e)

/-- Python dict assignment d[k] = v: replace the value in place when the
key exists, append otherwise (keys stay unique, insertion order kept). -/
def dictInsert (m : List (String × AgentResult)) (k : String) (v : AgentResult) :
    List (String × AgentResult) :=
  match m with
  | [] => [(k, v)]
  | p :: rest => if p.1 = k then (k, v) :: rest else p :: dictInsert rest k v

/-- Python dict read d.get(k). -/
def dictLookup (m : List (String × AgentResult)) (k : String) : Option AgentResult :=
  match m with
  | [] => none
  | p :: rest => if p.1 = k then some p.2 else dictLookup rest k

/-- Loop body of run_multiple_agents (lines 254-301): a planned name that
is a key of agent_map is executed through its wrapper and its result is
stored; an unknown name only produces a warning event and no entry. -/
def collectStep (impl : String → Except String String)
    (acc : List (String × AgentResult)) (name : String) : List (String × AgentResult) :=
  if name ∈ knownAgents then dictInsert acc name (runAgent impl name) else acc

/-- run_multiple_agents result collection (lines 233-312): fold the loop
body over agents_to_run starting from the fresh local dict. -/
def collectAgentResponses (impl : String → Except String String)
    (plan : List String) : List (String × AgentResult) :=
  plan.foldl (collectStep impl) []

/-- classify_intent (lines 141-224).  On oracle success the raw
agents_needed list is stored verbatim, the intent label is the single
element when the list has length one and "multiple" otherwise, and the
confidence defaults to 0.5 when the key is absent.  On any raised error
(call failure, invalid JSON, unconvertible confidence) the fixed fallback
of lines 220-223 is used. -/
def classify_intent (o : Except Unit ClassifyOut) (s : AgentState) : AgentState :=
  match o with
  | .ok r =>
      { s with
        intent_classification :=
          match r.agents_needed with
          | [a] => a
          | _ => "multiple",
        agents_to_run := r.agents_needed,
        confidence_score := r.confidence.getD (mkRat 1 2),
        agent_responses := [] }
  | .error _ =>
      { s with
        intent_classification := "multiple",
        agents_to_run := ["weather", "soil"],
        confidence_score := mkRat 1 2,
        agent_responses := [] }

/-- route_to_agents (lines 226-231). -/
def route_to_agents (s : AgentState) : String :=
  if s.intent_classification ∈ knownAgents then s.intent_classification else "multiple"

/-- run_multiple_agents node effect on the state (line 304): the
agent_responses map is replaced by the freshly collected dict. -/
def run_multiple_agents (impl : String → Except String String) (s : AgentState) : AgentState :=
  { s with agent_responses := collectAgentResponses impl s.agents_to_run }

/-- A single run_X_agent node reached through the single-intent edge of
the graph: stores this one wrapper result in the existing map. -/
def run_single_agent (impl : String → Except String String) (name : String)
    (s : AgentState) : AgentState :=
  { s with agent_responses := dictInsert s.agent_responses name (runAgent impl name) }

/-- The fixed apology of make_decision line 514. -/
def apologyMessage : String :=
  "I apologize, but I couldn\x27t gather the necessary information to answer your question. Please try again or rephrase your query."

/-- The fixed fallback of make_decision line 544. -/
def decisionErrorMessage : String :=
  "I encountered an error processing your request. Please try again."

/-- make_decision (lines 501-550).  The Bool records whether the
generation oracle was invoked: with an empty result map the method
returns before building the prompt, otherwise the oracle is called and
either its text or the fixed fallback is stored. -/
def make_decision (o : Except Unit String) (s : AgentState) : AgentState × Bool :=
  if s.agent_responses = [] then
    ({ s with final_response := apologyMessage }, false)
  else
    match o with
    | .ok t => ({ s with final_response := t }, true)
    | .error _ => ({ s with final_response := decisionErrorMessage }, true)

/-- verify_response (lines 552-585).  Oracle outcome: ok (some c) is a
call whose text parsed as the float c, ok none is a call whose text
float() rejected, error is a raised call; the two failing outcomes share
the except branch and the default of 0.7, a parsed score is clamped by
min(max(c, 0.0), 1.0). -/
def verify_response (o : Except Unit (Option ℚ)) (s : AgentState) : AgentState :=
  match o with
  | .ok (some c) => { s with confidence_score := min (max c 0) 1 }
  | .ok none => { s with confidence_score := mkRat 7 10 }
  | .error _ => { s with confidence_score := mkRat 7 10 }

/-- check_confidence (lines 587-590). -/
def check_confidence (s : AgentState) : AgentState :=
  { s with require_human_feedback := decide (s.confidence_score < mkRat 3 5) }

/-- confidence_check (lines 592-594). -/
def confidence_check (s : AgentState) : String :=
  if s.require_human_feedback then "insufficient" else "sufficient"

/-- send_notifications (lines 596-606): calls the external
NotificationAgent, swallows its errors, and returns the state unchanged. -/
def send_notifications (s : AgentState) : AgentState := s

/-- Routing stage of the compiled graph (_build_graph lines 103-123):
an atomic intent goes to its one agent node, everything else to
run_multiple_agents. -/
def routeStage (impl : String → Except String String) (s : AgentState) : AgentState :=
  if route_to_agents s = "multiple" then run_multiple_agents impl s
  else run_single_agent impl (route_to_agents s) s

/-- Tail of the graph after the verifier (_build_graph lines 128-137):
check_confidence, then conditionally the notification node or END.  The
second Bool of the output records whether the notification node ran. -/
def gateTail (s4 : AgentState) (decCalled : Bool) : AgentState × Bool × Bool :=
  let s5 := check_confidence s4
  if confidence_check s5 = "sufficient" then (send_notifications s5, decCalled, true)
  else (s5, decCalled, false)

/-- One full graph invocation (process_query line 627 on the graph of
_build_graph): classify, route, synthesize, verify, gate.  Output:
(final state, generation oracle called by make_decision, notification
node reached). -/
def graphInvoke (co : Except Unit ClassifyOut) (impl : String → Except String String)
    (deco : Except Unit String) (vo : Except Unit (Option ℚ)) (s : AgentState) :
    AgentState × Bool × Bool :=
  gateTail
    (verify_response vo (make_decision deco (routeStage impl (classify_intent co s))).1)
    (make_decision deco (routeStage impl (classify_intent co s))).2

/-- One queued SSE message (views.py lines 27-31). -/
structure QueuedMessage where
  message : String
  event : String
  timestamp : ℚ
deriving DecidableEq, Repr

/-- SSEProgressTracker (views.py lines 15-56): the message queue, the
is_active flag and the last-activity clock. -/
structure SSEProgressTracker where
  message_queue : List QueuedMessage
  is_active : Bool
  last_activity : ℚ
deriving DecidableEq, Repr

/-- SSEProgressTracker.add_message (views.py lines 23-31): guarded by
is_active; when active it stamps last_activity and enqueues, otherwise it
does nothing. -/
def SSEProgressTracker.add_message (t : SSEProgressTracker) (message : String)
    (event_type : String) (now : ℚ) : SSEProgressTracker :=
  if t.is_active then
    { t with
      last_activity := now,
      message_queue := t.message_queue ++ [⟨message, event_type, now⟩] }
  else t

/-- SSEProgressTracker.stop (views.py lines 54-56). -/
def SSEProgressTracker.stop (t : SSEProgressTracker) : SSEProgressTracker :=
  { t with is_active := false }

/-- A neutral initial state, as built in process_query lines 613-623. -/
def baseState : AgentState :=
  { user_query := "q"
    intent_classification := ""
    confidence_score := 0
    agent_responses := []
    final_response := ""
    require_human_feedback := false
    agents_to_run := [] }

/- ---------------------------------------------------------------------
   Helper lemmas about the dict model and the collection loop.
   --------------------------------------------------------------------- -/

lemma dictInsert_keys (m : List (String × AgentResult)) (k : String) (v : AgentResult) :
    ((dictInsert m k v).map Prod.fst).toFinset = insert k ((m.map Prod.fst).toFinset) := by
  induction m with
  | nil => simp [dictInsert]
  | cons p rest ih =>
    by_cases h : p.1 = k
    · simp [dictInsert, h]
    · simp only [dictInsert, if_neg h, List.map_cons, List.toFinset_cons, ih]
      exact Finset.Insert.comm p.1 k _

lemma dictLookup_insert_self (m : List (String × AgentResult)) (k : String) (v : AgentResult) :
    dictLookup (dictInsert m k v) k = some v := by
  induction m with
  | nil => simp [dictInsert, dictLookup]
  | cons p rest ih =>
    by_cases h : p.1 = k
    · simp [dictInsert, h, dictLookup]
    · simp [dictInsert, h, dictLookup, ih]

lemma dictLookup_insert_ne (m : List (String × AgentResult)) (k k' : String)
    (v : AgentResult) (h : k' ≠ k) :
    dictLookup (dictInsert m k v) k' = dictLookup m k' := by
  induction m with
  | nil =>
    simp only [dictInsert, dictLookup]
    rw [if_neg (show ¬ k = k' from fun hc => h hc.symm)]
  | cons p rest ih =>
    simp only [dictInsert]
    by_cases hp : p.1 = k
    · rw [if_pos hp]
      simp only [dictLookup]
      rw [if_neg (show ¬ k = k' from fun hc => h hc.symm),
        if_neg (show ¬ p.1 = k' from fun hc => h ((hp.symm.trans hc).symm))]
    · rw [if_neg hp]
      simp only [dictLookup]
      by_cases hpk : p.1 = k'
      · rw [if_pos hpk, if_pos hpk]
      · rw [if_neg hpk, if_neg hpk, ih]

lemma collect_go_keys (impl : String → Except String String) (plan : List String) :
    ∀ acc : List (String × AgentResult),
      ((plan.foldl (collectStep impl) acc).map Prod.fst).toFinset
        = ((acc.map Prod.fst).toFinset)
            ∪ (plan.filter (fun a => decide (a ∈ knownAgents))).toFinset := by
  induction plan with
  | nil => intro acc; simp
  | cons a rest ih =>
    intro acc
    by_cases h : a ∈ knownAgents
    · rw [List.foldl_cons]
      show ((rest.foldl (collectStep impl) (collectStep impl acc a)).map Prod.fst).toFinset = _
      rw [ih, collectStep, if_pos h, dictInsert_keys, List.filter_cons, if_pos (by simpa using h),
        List.toFinset_cons, Finset.insert_union, Finset.union_insert]
    · rw [List.foldl_cons]
      show ((rest.foldl (collectStep impl) (collectStep impl acc a)).map Prod.fst).toFinset = _
      rw [ih, collectStep, if_neg h, List.filter_cons, if_neg (by simpa using h)]

lemma collect_go_lookup (impl : String → Except String String) (name : String)
    (plan : List String) :
    ∀ acc : List (String × AgentResult),
      dictLookup (plan.foldl (collectStep impl) acc) name
        = if name ∈ plan ∧ name ∈ knownAgents then some (runAgent impl name)
          else dictLookup acc name := by
  induction plan with
  | nil => intro acc; simp
  | cons a rest ih =>
    intro acc
    rw [List.foldl_cons, ih]
    by_cases hmem : name ∈ rest ∧ name ∈ knownAgents
    · rw [if_pos hmem, if_pos ⟨List.mem_cons_of_mem a hmem.1, hmem.2⟩]
    · rw [if_neg hmem]
      by_cases ha : a = name
      · subst ha
        by_cases hk : a ∈ knownAgents
        · rw [if_pos ⟨List.mem_cons_self a rest, hk⟩]
          simp [collectStep, hk, dictLookup_insert_self]
        · rw [if_neg (fun hc => hk hc.2)]
          simp [collectStep, hk]
      · have hcond : ¬ (name ∈ a :: rest ∧ name ∈ knownAgents) := by
          rintro ⟨hc1, hc2⟩
          rcases List.mem_cons.mp hc1 with hc | hc
          · exact ha hc.symm
          · exact hmem ⟨hc, hc2⟩
        rw [if_neg hcond]
        by_cases hk : a ∈ knownAgents
        · simp [collectStep, hk, dictLookup_insert_ne _ _ _ _ (fun hc => ha hc.symm)]
        · simp [collectStep, hk]

lemma gateTail_flag (s4 : AgentState) (d2 : Bool) :
    (gateTail s4 d2).1.require_human_feedback = decide (s4.confidence_score < mkRat 3 5)
    ∧ (gateTail s4 d2).1.confidence_score = s4.confidence_score
    ∧ (gateTail s4 d2).1.final_response = s4.final_response
    ∧ (gateTail s4 d2).2.1 = d2
    ∧ ((gateTail s4 d2).2.2 = false ↔ s4.confidence_score < mkRat 3 5) := by
  by_cases h : s4.confidence_score < mkRat 3 5 <;>
    simp [gateTail, check_confidence, confidence_check, send_notifications, h]

lemma verify_response_final (o : Except Unit (Option ℚ)) (s : AgentState) :
    (verify_response o s).final_response = s.final_response := by
  cases o with
  | error e => rfl
  | ok v => cases v <;> rfl

/- ---------------------------------------------------------------------
   Claim theorems.
   --------------------------------------------------------------------- -/

/-- C1: after run_multiple_agents completes, the key set of the result
map equals exactly the planned agent names restricted to the closed set
market/satellite/weather/pest/soil/search, for every agent behaviour,
so no matter how many individual agents fail. -/
theorem result_map_keys_match_plan (impl : String → Except String String) (s : AgentState) :
    (((run_multiple_agents impl s).agent_responses).map Prod.fst).toFinset
      = (s.agents_to_run.filter (fun a => decide (a ∈ knownAgents))).toFinset := by
  rw [run_multiple_agents]
  show ((collectAgentResponses impl s.agents_to_run).map Prod.fst).toFinset = _
  rw [collectAgentResponses, collect_go_keys]
  simp

/-- C3: if the underlying agent invocation raises for a planned known
agent, the run does not abort: the result map holds a Failure entry for
that agent whose error message is non-empty, and the key set still covers
every planned known agent, so every sibling agent was still executed. -/
theorem agent_failure_isolated (impl : String → Except String String) (s : AgentState)
    (name : String) (e : String)
    (himpl : impl name = Except.error e)
    (hplan : name ∈ s.agents_to_run) (hknown : name ∈ knownAgents) :
    dictLookup ((run_multiple_agents impl s).agent_responses) name
        = some (AgentResult.failure (failMsgOf name ++ e))
    ∧ 0 < (failMsgOf name ++ e).length
    ∧ (((run_multiple_agents impl s).agent_responses).map Prod.fst).toFinset
        = (s.agents_to_run.filter (fun a => decide (a ∈ knownAgents))).toFinset := by
  refine ⟨?_, ?_, ?_⟩
  · rw [run_multiple_agents]
    show dictLookup (collectAgentResponses impl s.agents_to_run) name = _
    rw [collectAgentResponses, collect_go_lookup, if_pos ⟨hplan, hknown⟩, runAgent, himpl]
  · rw [String.length_append]
    have hpos : 0 < (failMsgOf name).length := by
      simp only [knownAgents, List.mem_cons, List.not_mem_nil, or_false] at hknown
      rcases hknown with h | h | h | h | h | h <;> subst h <;> decide
    omega
  · rw [run_multiple_agents]
    show ((collectAgentResponses impl s.agents_to_run).map Prod.fst).toFinset = _
    rw [collectAgentResponses, collect_go_keys]
    simp

/-- Concrete agent behaviour for the C3 witness: the pest agent raises,
every other agent returns data. -/
def pestImpl : String → Except String String :=
  fun n => if n = "pest" then Except.error "boom" else Except.ok "data"

/-- Concrete state for the C3 witness: three planned agents. -/
def pestState : AgentState :=
  { baseState with intent_classification := "multiple", agents_to_run := ["weather", "pest", "soil"] }

/-- C3 witness: the failure isolation theorem at a concrete run where the
pest agent raises amid two healthy siblings. -/
theorem agent_failure_isolated_witness :
    dictLookup ((run_multiple_agents pestImpl pestState).agent_responses) "pest"
        = some (AgentResult.failure (failMsgOf "pest" ++ "boom"))
    ∧ 0 < (failMsgOf "pest" ++ "boom").length
    ∧ (((run_multiple_agents pestImpl pestState).agent_responses).map Prod.fst).toFinset
        = (pestState.agents_to_run.filter (fun a => decide (a ∈ knownAgents))).toFinset :=
  agent_failure_isolated pestImpl pestState "pest" "boom" (by rfl) (by decide) (by decide)

/-- C4: when the classification oracle raises or returns output that is
not valid JSON, the run does not fail: the plan becomes the fixed default
weather then soil, the confidence score is exactly 0.5, the intent label
is "multiple", and the response map is reset to empty. -/
theorem classify_fallback_defaults (s : AgentState) :
    (classify_intent (Except.error ()) s).agents_to_run = ["weather", "soil"]
    ∧ (classify_intent (Except.error ()) s).confidence_score = mkRat 1 2
    ∧ (classify_intent (Except.error ()) s).intent_classification = "multiple"
    ∧ (classify_intent (Except.error ()) s).agent_responses = [] :=
  ⟨rfl, rfl, rfl, rfl⟩

/-- C5: when the result map is empty as the synthesizer runs, the final
answer is the fixed apology string and the generation oracle is not
called (second component false), whatever the oracle would have said. -/
theorem make_decision_empty_apology (o : Except Unit String) (s : AgentState)
    (h : s.agent_responses = []) :
    make_decision o s = ({ s with final_response := apologyMessage }, false) := by
  unfold make_decision
  rw [if_pos h]

/-- C5 witness: the empty-map short-circuit on a concrete state with a
live oracle that would have answered. -/
theorem make_decision_empty_apology_witness :
    make_decision (Except.ok "unused answer") baseState
      = ({ baseState with final_response := apologyMessage }, false) :=
  make_decision_empty_apology (Except.ok "unused answer") baseState (by decide)

/-- C2: on every run, after the confidence gate the session flag
require_human_feedback is true exactly when the verified confidence score
is strictly below 0.6, and when it is true the notification node is not
reached (the run ends at the graph END edge instead). -/
theorem confidence_gate_spec (co : Except Unit ClassifyOut)
    (impl : String → Except String String) (deco : Except Unit String)
    (vo : Except Unit (Option ℚ)) (s : AgentState) :
    ((graphInvoke co impl deco vo s).1.require_human_feedback = true
        ↔ (graphInvoke co impl deco vo s).1.confidence_score < mkRat 3 5)
    ∧ ((graphInvoke co impl deco vo s).1.require_human_feedback = true
        → (graphInvoke co impl deco vo s).2.2 = false) := by
  obtain ⟨h1, h2, _, _, h5⟩ :=
    gateTail_flag
      (verify_response vo (make_decision deco (routeStage impl (classify_intent co s))).1)
      (make_decision deco (routeStage impl (classify_intent co s))).2
  unfold graphInvoke
  rw [h1, h2]
  refine ⟨by simp, fun hf => h5.mpr ?_⟩
  simpa using hf

/-- C2 witness: a concrete run whose verified score is 0 (below the 0.6
threshold): the flag is set and the notification stage is skipped. -/
theorem confidence_gate_spec_witness :
    ((graphInvoke (Except.error ()) (fun _ => Except.ok "data") (Except.ok "answer")
        (Except.ok (some 0)) baseState).1.require_human_feedback = true)
    ∧ (graphInvoke (Except.error ()) (fun _ => Except.ok "data") (Except.ok "answer")
        (Except.ok (some 0)) baseState).2.2 = false := by
  have h := confidence_gate_spec (Except.error ()) (fun _ => Except.ok "data")
    (Except.ok "answer") (Except.ok (some 0)) baseState
  have hf := h.1.mpr (by decide)
  exact ⟨hf, h.2 hf⟩

/-- C6: a parsed verifier score is stored clamped to the unit interval;
a raised verifier call or unparsable verifier output stores exactly 0.7,
and 0.7 is treated as sufficient by the gate, so the notification node is
reached on every run whose verifier call raises. -/
theorem verify_confidence_contract (s : AgentState) (c : ℚ)
    (co : Except Unit ClassifyOut) (impl : String → Except String String)
    (deco : Except Unit String) :
    (verify_response (Except.ok (some c)) s).confidence_score = min (max c 0) 1
    ∧ (verify_response (Except.ok none) s).confidence_score = mkRat 7 10
    ∧ (verify_response (Except.error ()) s).confidence_score = mkRat 7 10
    ∧ (check_confidence (verify_response (Except.error ()) s)).require_human_feedback = false
    ∧ (graphInvoke co impl deco (Except.error ()) s).2.2 = true := by
  refine ⟨rfl, rfl, rfl, ?_, ?_⟩
  · simp only [check_confidence, verify_response]
    rfl
  · obtain ⟨_, _, _, _, h5⟩ :=
      gateTail_flag
        (verify_response (Except.error ())
          (make_decision deco (routeStage impl (classify_intent co s))).1)
        (make_decision deco (routeStage impl (classify_intent co s))).2
    unfold graphInvoke
    rcases hb : (gateTail
        (verify_response (Except.error ())
          (make_decision deco (routeStage impl (classify_intent co s))).1)
        (make_decision deco (routeStage impl (classify_intent co s))).2).2.2 with _ | _
    · exfalso
      have := h5.mp hb
      rw [show (verify_response (Except.error ())
          (make_decision deco (routeStage impl (classify_intent co s))).1).confidence_score
          = mkRat 7 10 from rfl] at this
      exact absurd this (by decide)
    · rfl

/-- C9: when the classification oracle returns valid JSON with an empty
agents_needed list, nothing fails: the intent label is "multiple", the
multi-agent runner executes zero agents so the result map stays empty,
the final answer is the fixed apology, and the generation oracle is not
called by the synthesizer. -/
theorem empty_plan_degrades (s : AgentState) (c : Option ℚ)
    (impl : String → Except String String) (deco : Except Unit String)
    (vo : Except Unit (Option ℚ)) :
    (classify_intent (Except.ok ⟨[], c⟩) s).intent_classification = "multiple"
    ∧ (classify_intent (Except.ok ⟨[], c⟩) s).agents_to_run = []
    ∧ (run_multiple_agents impl (classify_intent (Except.ok ⟨[], c⟩) s)).agent_responses = []
    ∧ (graphInvoke (Except.ok ⟨[], c⟩) impl deco vo s).1.final_response = apologyMessage
    ∧ (graphInvoke (Except.ok ⟨[], c⟩) impl deco vo s).2.1 = false := by
  have hroute : routeStage impl (classify_intent (Except.ok ⟨[], c⟩) s)
      = run_multiple_agents impl (classify_intent (Except.ok ⟨[], c⟩) s) := by
    unfold routeStage route_to_agents classify_intent
    simp [knownAgents]
  have hresp : (run_multiple_agents impl (classify_intent (Except.ok ⟨[], c⟩) s)).agent_responses
      = [] := rfl
  have hdec : make_decision deco (routeStage impl (classify_intent (Except.ok ⟨[], c⟩) s))
      = ({ routeStage impl (classify_intent (Except.ok ⟨[], c⟩) s) with
            final_response := apologyMessage }, false) := by
    rw [hroute]
    exact make_decision_empty_apology deco _ hresp
  obtain ⟨_, _, h3, h4, _⟩ :=
    gateTail_flag
      (verify_response vo (make_decision deco (routeStage impl (classify_intent (Except.ok ⟨[], c⟩) s))).1)
      (make_decision deco (routeStage impl (classify_intent (Except.ok ⟨[], c⟩) s))).2
  refine ⟨rfl, rfl, hresp, ?_, ?_⟩
  · unfold graphInvoke
    rw [h3, verify_response_final, hdec]
  · unfold graphInvoke
    rw [h4, hdec]

/-- C7 counterexample: classify_intent stores the oracle confidence
without clamping (an out-of-range value 1.5 is stored as-is), and it does
not de-duplicate agents_needed (a doubled category is stored doubled). -/
theorem classify_contract_cex :
    (classify_intent (Except.ok ⟨["weather"], some (mkRat 3 2)⟩) baseState).confidence_score
        ≠ min (max (mkRat 3 2) 0) 1
    ∧ (classify_intent (Except.ok ⟨["weather", "weather"], some (mkRat 1 2)⟩) baseState).agents_to_run
        ≠ (["weather", "weather"] : List String).dedup := by
  exact ⟨by decide, by decide⟩

/-- C7 as amended: on valid JSON the agents_to_run list is stored
verbatim (no de-duplication, no filtering at classification time; unknown
names are only dropped later, at execution, where the result-map keys are
the filtered planned names); the intent label is the single listed name
exactly when the raw list has length one, else "multiple"; and the stored
confidence is the oracle value unclamped, defaulting to 0.5 only when
the confidence key is absent. -/
theorem classify_success_amended (s : AgentState) (r : ClassifyOut)
    (impl : String → Except String String) :
    (classify_intent (Except.ok r) s).agents_to_run = r.agents_needed
    ∧ (classify_intent (Except.ok r) s).confidence_score = r.confidence.getD (mkRat 1 2)
    ∧ (classify_intent (Except.ok r) s).intent_classification
        = (if r.agents_needed.length = 1 then r.agents_needed.headI else "multiple")
    ∧ (((run_multiple_agents impl (classify_intent (Except.ok r) s)).agent_responses).map
          Prod.fst).toFinset
        = (r.agents_needed.filter (fun a => decide (a ∈ knownAgents))).toFinset := by
  refine ⟨rfl, rfl, ?_, ?_⟩
  · rcases hcase : r.agents_needed with _ | ⟨a, _ | ⟨b, tl⟩⟩ <;>
      simp [classify_intent, hcase]
  · rw [run_multiple_agents]
    show ((collectAgentResponses impl (classify_intent (Except.ok r) s).agents_to_run).map
        Prod.fst).toFinset = _
    rw [collectAgentResponses, collect_go_keys]
    simp [classify_intent]

/- ---------------------------------------------------------------------
   Heartbeat timer model for C8 (farm_orchestrator.py lines 55-78 and
   608-634).  The keep-alive machinery is two threads sharing the fields
   keep_alive_active and keep_alive_timer:

   - the timer thread: each armed threading.Timer waits (phase waiting),
     then runs send_keep_alive, which reads keep_alive_active (phase
     checking), emits the keep_alive progress event (phase emitting) and
     calls _schedule_keep_alive; inside _schedule_keep_alive the early
     return that re-reads the flag (line 69) and the creation plus start
     of the fresh Timer (lines 77-78) are separate statements, so they
     are separate phases (reschedCheck, then arming) and the stop can
     run to completion between them;
   - the main thread: _stop_keep_alive first clears keep_alive_active
     (stop phase inactiveSet) and then cancels whatever timer object
     keep_alive_timer currently names (stop phase cancelled);
     Timer.cancel only stops a timer that is still waiting, never a
     callback that already started, and a timer armed after the cancel
     is never cancelled by anyone.

   A trace is an arbitrary interleaving of single steps of the two
   threads; each emitted event records whether _stop_keep_alive had fully
   executed at emission time. -/

/-- Program counter of the timer thread. -/
inductive HBPhase where
  | waiting
  | checking
  | emitting
  | reschedCheck
  | arming
  | done
deriving DecidableEq, Repr

/-- Program counter of _stop_keep_alive on the main thread. -/
inductive StopPhase where
  | notStarted
  | inactiveSet
  | cancelled
deriving DecidableEq, Repr

/-- Shared state of the two threads; each events entry records whether
_stop_keep_alive had completed when that keep_alive event was emitted. -/
structure HBState where
  active : Bool
  timerCancelled : Bool
  hb : HBPhase
  stopPC : StopPhase
  events : List Bool
deriving DecidableEq, Repr

/-- Thread identifiers for interleaving. -/
inductive Tid where
  | hbThread
  | mainThread
deriving DecidableEq, Repr

/-- One step of the timer thread (send_keep_alive plus
_schedule_keep_alive, lines 67-78).  The flag re-read of
_schedule_keep_alive (reschedCheck) and the Timer creation and start
(arming) are distinct steps, so a stop interleaved between them is
represented; the arming step installs a fresh, uncancelled timer
whatever the stop has done meanwhile. -/
def hbStep (s : HBState) : HBState :=
  match s.hb with
  | .waiting =>
      if s.timerCancelled then { s with hb := .done } else { s with hb := .checking }
  | .checking =>
      if s.active then { s with hb := .emitting } else { s with hb := .done }
  | .emitting =>
      { s with events := s.events ++ [decide (s.stopPC = .cancelled)], hb := .reschedCheck }
  | .reschedCheck =>
      if s.active then { s with hb := .arming } else { s with hb := .done }
  | .arming => { s with hb := .waiting, timerCancelled := false }
  | .done => s

/-- One step of _stop_keep_alive on the main thread (lines 60-65). -/
def stopStep (s : HBState) : HBState :=
  match s.stopPC with
  | .notStarted => { s with active := false, stopPC := .inactiveSet }
  | .inactiveSet => { s with timerCancelled := true, stopPC := .cancelled }
  | .cancelled => s

/-- Interleaved system step. -/
def sysStep (s : HBState) : Tid → HBState
  | .hbThread => hbStep s
  | .mainThread => stopStep s

/-- State right after _start_keep_alive (lines 55-58): flag set, first
timer armed and pending. -/
def hbInit : HBState :=
  { active := true, timerCancelled := false, hb := .waiting,
    stopPC := .notStarted, events := [] }

/-- Run an interleaving from the started state. -/
def runHB (trace : List Tid) : HBState := trace.foldl sysStep hbInit

/-- Inductive invariant: once the stop sequence has begun the flag stays
cleared, and a post-stop keep_alive emission can exist only as a single
event left by the one callback that was already past its flag check;
having emitted it, that callback sits at the reschedule check with the
flag cleared, so it can only terminate and never emit again (a callback
that instead armed one last post-stop timer emitted nothing, since its
emission preceded the stop and the fresh timer's callback finds the
cleared flag at its check). -/
def hbInv (s : HBState) : Prop :=
  (s.stopPC = .notStarted ∨ s.active = false)
  ∧ (s.events.count true = 0
     ∨ (s.stopPC = .cancelled ∧ s.events.count true = 1 ∧ s.active = false
        ∧ (s.hb = .reschedCheck ∨ s.hb = .done)))

lemma hbInv_step (s : HBState) (t : Tid) (h : hbInv s) : hbInv (sysStep s t) := by
  obtain ⟨ha, hb⟩ := h
  cases t with
  | mainThread =>
    cases hsp : s.stopPC with
    | notStarted =>
      refine ⟨Or.inr ?_, ?_⟩
      · simp [sysStep, stopStep, hsp]
      · rcases hb with hb | ⟨hc, _⟩
        · exact Or.inl (by simpa [sysStep, stopStep, hsp] using hb)
        · rw [hsp] at hc; cases hc
    | inactiveSet =>
      have hact : s.active = false := by
        rcases ha with ha | ha
        · rw [hsp] at ha; cases ha
        · exact ha
      refine ⟨Or.inr ?_, ?_⟩
      · simp [sysStep, stopStep, hsp, hact]
      · rcases hb with hb | ⟨hc, _⟩
        · exact Or.inl (by simpa [sysStep, stopStep, hsp] using hb)
        · rw [hsp] at hc; cases hc
    | cancelled =>
      simpa [sysStep, stopStep, hsp] using ⟨ha, hb⟩
  | hbThread =>
    cases hhb : s.hb with
    | waiting =>
      have hcnt : s.events.count true = 0 := by
        rcases hb with hb | ⟨_, _, _, hr | hr⟩
        · exact hb
        · rw [hhb] at hr; cases hr
        · rw [hhb] at hr; cases hr
      cases htc : s.timerCancelled <;>
        exact ⟨by simpa [sysStep, hbStep, hhb, htc] using ha,
          Or.inl (by simpa [sysStep, hbStep, hhb, htc] using hcnt)⟩
    | checking =>
      have hcnt : s.events.count true = 0 := by
        rcases hb with hb | ⟨_, _, _, hr | hr⟩
        · exact hb
        · rw [hhb] at hr; cases hr
        · rw [hhb] at hr; cases hr
      cases hact : s.active with
      | true =>
        exact ⟨by simpa [sysStep, hbStep, hhb, hact] using ha,
          Or.inl (by simpa [sysStep, hbStep, hhb, hact] using hcnt)⟩
      | false =>
        exact ⟨by simp [sysStep, hbStep, hhb, hact],
          Or.inl (by simpa [sysStep, hbStep, hhb, hact] using hcnt)⟩
    | emitting =>
      have hcnt : s.events.count true = 0 := by
        rcases hb with hb | ⟨_, _, _, hr | hr⟩
        · exact hb
        · rw [hhb] at hr; cases hr
        · rw [hhb] at hr; cases hr
      refine ⟨by simpa [sysStep, hbStep, hhb] using ha, ?_⟩
      cases hsp : s.stopPC with
      | notStarted =>
        exact Or.inl (by simp [sysStep, hbStep, hhb, hsp, List.count_append, hcnt])
      | inactiveSet =>
        exact Or.inl (by simp [sysStep, hbStep, hhb, hsp, List.count_append, hcnt])
      | cancelled =>
        have hact : s.active = false := by
          rcases ha with ha | ha
          · rw [hsp] at ha; cases ha
          · exact ha
        refine Or.inr ⟨by simp [sysStep, hbStep, hhb, hsp], ?_, ?_, ?_⟩
        · simp [sysStep, hbStep, hhb, hsp, List.count_append, hcnt]
        · simp [sysStep, hbStep, hhb, hact]
        · simp [sysStep, hbStep, hhb]
    | reschedCheck =>
      cases hact : s.active with
      | true =>
        have hcnt : s.events.count true = 0 := by
          rcases hb with hb | ⟨_, _, hf, _⟩
          · exact hb
          · rw [hact] at hf; cases hf
        exact ⟨by simpa [sysStep, hbStep, hhb, hact] using ha,
          Or.inl (by simpa [sysStep, hbStep, hhb, hact] using hcnt)⟩
      | false =>
        refine ⟨by simp [sysStep, hbStep, hhb, hact], ?_⟩
        rcases hb with hb | ⟨h1, h2, h3, _⟩
        · exact Or.inl (by simpa [sysStep, hbStep, hhb, hact] using hb)
        · refine Or.inr ⟨by simpa [sysStep, hbStep, hhb, hact] using h1,
            by simpa [sysStep, hbStep, hhb, hact] using h2,
            by simp [sysStep, hbStep, hhb, hact], Or.inr ?_⟩
          simp [sysStep, hbStep, hhb, hact]
    | arming =>
      have hcnt : s.events.count true = 0 := by
        rcases hb with hb | ⟨_, _, _, hr | hr⟩
        · exact hb
        · rw [hhb] at hr; cases hr
        · rw [hhb] at hr; cases hr
      exact ⟨by simpa [sysStep, hbStep, hhb] using ha,
        Or.inl (by simpa [sysStep, hbStep, hhb] using hcnt)⟩
    | done =>
      refine ⟨by simpa [sysStep, hbStep, hhb] using ha, ?_⟩
      rcases hb with hb | ⟨h1, h2, h3, _⟩
      · exact Or.inl (by simpa [sysStep, hbStep, hhb] using hb)
      · exact Or.inr ⟨by simpa [sysStep, hbStep, hhb] using h1,
          by simpa [sysStep, hbStep, hhb] using h2,
          by simpa [sysStep, hbStep, hhb] using h3,
          Or.inr (by simp [sysStep, hbStep, hhb])⟩

lemma hbInv_run (trace : List Tid) : ∀ s : HBState, hbInv s → hbInv (trace.foldl sysStep s) := by
  induction trace with
  | nil => intro s h; exact h
  | cons t rest ih => intro s h; exact ih _ (hbInv_step s t h)

/-- C8 counterexample, falsifying both clauses of the claim.  First
interleaving: the timer callback passes its keep_alive_active check,
_stop_keep_alive then runs to completion (flag cleared, Timer.cancel
executed), and the callback then emits its keep_alive event — one
keep_alive event is produced strictly after the heartbeat stop has
executed.  Second interleaving: the callback passes the flag re-read of
_schedule_keep_alive, the stop then runs to completion (its cancel hits
the already-fired old timer), and the callback then arms a fresh timer —
after the stop the state holds a pending uncancelled timer, and one more
step fires it — so the heartbeat timer does fire again after the stop
(that firing emits nothing, as the flag check fails). -/
theorem keep_alive_race_cex :
    ((runHB [Tid.hbThread, Tid.hbThread, Tid.mainThread, Tid.mainThread,
        Tid.hbThread]).stopPC = StopPhase.cancelled
      ∧ (runHB [Tid.hbThread, Tid.hbThread, Tid.mainThread, Tid.mainThread,
          Tid.hbThread]).events = [true])
    ∧ ((runHB [Tid.hbThread, Tid.hbThread, Tid.hbThread, Tid.hbThread,
        Tid.mainThread, Tid.mainThread, Tid.hbThread]).stopPC = StopPhase.cancelled
      ∧ (runHB [Tid.hbThread, Tid.hbThread, Tid.hbThread, Tid.hbThread,
          Tid.mainThread, Tid.mainThread, Tid.hbThread]).hb = HBPhase.waiting
      ∧ (runHB [Tid.hbThread, Tid.hbThread, Tid.hbThread, Tid.hbThread,
          Tid.mainThread, Tid.mainThread, Tid.hbThread]).timerCancelled = false
      ∧ (runHB [Tid.hbThread, Tid.hbThread, Tid.hbThread, Tid.hbThread,
          Tid.mainThread, Tid.mainThread, Tid.hbThread, Tid.hbThread]).hb
            = HBPhase.checking
      ∧ (runHB [Tid.hbThread, Tid.hbThread, Tid.hbThread, Tid.hbThread,
          Tid.mainThread, Tid.mainThread, Tid.hbThread, Tid.hbThread]).events
            = [false]) := by
  exact ⟨⟨by decide, by decide⟩, by decide, by decide, by decide, by decide, by decide⟩

/-- C8 as amended: under every interleaving of the timer callback with
_stop_keep_alive, at most one keep_alive event is emitted after the stop
has fully executed — the one emission of a callback already past its
flag check — and never more: every later flag check fails, so even the
one fresh timer a callback can still arm after the stop fires without
emitting. -/
theorem keep_alive_at_most_one_after_stop (trace : List Tid) :
    (runHB trace).events.count true ≤ 1 := by
  have h := hbInv_run trace hbInit ⟨Or.inl rfl, Or.inl rfl⟩
  rcases h.2 with h0 | ⟨_, h1, _, _⟩
  · rw [runHB]
    omega
  · rw [runHB]
    omega

/-- C10: once the SSE progress tracker is stopped, every subsequent
add_message call is a no-op: the queue, the flag and the last-activity
clock are all unchanged, so no later event can reach the consumer. -/
theorem add_message_after_stop_noop (t : SSEProgressTracker)
    (message event_type : String) (now : ℚ) :
    (t.stop).add_message message event_type now = t.stop := by
  rw [SSEProgressTracker.add_message, if_neg]
  simp [SSEProgressTracker.stop]

end KrishiMitra
